import Mathlib

set_option autoImplicit false

/-!
Verification development for the `wdio-appium-bs` repository.

Two components are embedded here, translated from the TypeScript source:

* the polling wait engine of `src/test/utils/SmartWaits.ts`
  (`fluentWait`, `waitWithBackoff`, `retryOperation`);
* the mock HTTP server `NetworkMockingClass`
  (`handleRequest`, `findMatchingRoute`, `sendMockResponse`'s route
  consumption, `addMockRoute`, `findRequests`, `getRequestLogs`).

Modelling conventions.  Asynchronous TS functions that suspend on timers
are modelled as pure functions over an explicit clock: condition
evaluation is instantaneous and `browser.pause(ms)` advances the elapsed
clock by `ms`.  A user-supplied condition is a function from the
invocation index (0,1,2,...) to the outcome of that invocation, so the
same embedding covers conditions whose result changes from poll to poll.
Thrown JS exceptions are a constructor of an explicit outcome type over
an arbitrary error type `E`; JS numbers that hold millisecond durations
or counters are naturals.  Potentially diverging loops are run on fuel:
`none` means the fuel ran out, and lemmas below show the fuel chosen by
the wrappers suffices whenever the polling interval is positive (with a
zero interval the original `while` loop genuinely never terminates).
-/

namespace SmartWaits

/-- Outcome of one invocation of a wait condition.  The TS conditions have
type `() => Promise<T | false>`: `value t` is a result that is not the
literal `false` sentinel, `notYet` is the sentinel `false`, and
`thrown e` is a raised exception carrying `e`. -/
inductive CondOutcome (T E : Type) where
  | value (t : T)
  | notYet
  | thrown (e : E)
  deriving DecidableEq

/-- Result of a `fluentWait` call: a returned value, the `null` returned
after the timeout (together with the message the code logs at that
point), or an exception that propagated out of the call. -/
inductive FluentResult (T E : Type) where
  | ok (t : T)
  | nullTimeout (loggedMsg : String)
  | raised (e : E)
  deriving DecidableEq

/-- Options record `FluentWaitOptions` (extends `WaitOptions`); `none`
models an absent optional field, resolved against the defaults inside
`fluentWait` exactly as the destructuring in the source does. -/
structure FluentWaitOptions where
  timeout : Option Nat := none
  timeoutMsg : Option String := none
  ignoreExceptions : Option Bool := none
  pollingInterval : Option Nat := none

/-- `SmartWaits.DEFAULT_TIMEOUT` from the source. -/
def DEFAULT_TIMEOUT : Nat := 15000

/-- `SmartWaits.DEFAULT_POLLING_INTERVAL` from the source. -/
def DEFAULT_POLLING_INTERVAL : Nat := 1000

/-- The `while (Date.now() - startTime < timeout)` loop of `fluentWait`.
`elapsed` is the clock, `i` the invocation index, `fuel` bounds the
number of iterations (`none` = fuel exhausted, modelling divergence).
Each failed poll awaits `browser.pause(interval)`, advancing the clock
by `interval`; on a thrown exception the loop either rethrows
(`ignoreEx = false`) or logs and keeps polling (`ignoreEx = true`). -/
def fluentLoop {T E : Type} (cond : Nat → CondOutcome T E) (ignoreEx : Bool)
    (timeout interval : Nat) (msg : String) :
    Nat → Nat → Nat → Option (FluentResult T E)
  | elapsed, i, fuel =>
    if elapsed < timeout then
      match fuel with
      | 0 => none
      | fuel' + 1 =>
        match cond i with
        | .value t => some (.ok t)
        | .notYet => fluentLoop cond ignoreEx timeout interval msg (elapsed + interval) (i + 1) fuel'
        | .thrown e =>
          if ignoreEx then
            fluentLoop cond ignoreEx timeout interval msg (elapsed + interval) (i + 1) fuel'
          else some (.raised e)
    else some (.nullTimeout msg)

/-- `SmartWaits.fluentWait` (SmartWaits.ts, lines 394-424): resolve the
option defaults (`timeout = 15000`, `pollingInterval = 1000`,
`ignoreExceptions = true`, the interpolated default message) and run the
polling loop from a zero clock.  Fuel `timeout + 1` is enough iterations
whenever the interval is positive, since every iteration starts strictly
below `timeout` and advances the clock by at least one. -/
def fluentWait {T E : Type} (cond : Nat → CondOutcome T E) (opts : FluentWaitOptions) :
    Option (FluentResult T E) :=
  let timeout := opts.timeout.getD DEFAULT_TIMEOUT
  let interval := opts.pollingInterval.getD DEFAULT_POLLING_INTERVAL
  let ignoreEx := opts.ignoreExceptions.getD true
  let msg := opts.timeoutMsg.getD ("Condition not met within " ++ toString timeout ++ "ms")
  fluentLoop cond ignoreEx timeout interval msg 0 0 (timeout + 1)

/-- Observable timeline of one `waitWithBackoff` call: condition
invocations (tagged with the 1-indexed attempt counter of the `for`
loop) interleaved with the `browser.pause(delay)` sleeps. -/
inductive BackoffEvent where
  | attemptMade (k : Nat)
  | paused (ms : Nat)
  deriving DecidableEq

/-- Options record of `waitWithBackoff`; `none` models an absent field. -/
structure BackoffOptions where
  maxAttempts : Option Nat := none
  initialDelay : Option Nat := none
  maxDelay : Option Nat := none
  multiplier : Option Nat := none

/-- The `for (let attempt = 1; attempt <= maxAttempts; attempt++)` loop
of `waitWithBackoff`.  `remaining` counts the loop iterations left
(`maxAttempts - attempt + 1` at every call), `delay` is the mutable
`delay` variable.  A non-`value` outcome (the `false` sentinel or a
caught exception, which the source only logs) falls through to the
retry: when more attempts remain the loop pauses for `delay` and then
updates `delay = Math.min(delay * multiplier, maxDelay)`.  The returned
event list is the timeline of attempts and pauses in order. -/
def backoffLoop {T E : Type} (cond : Nat → CondOutcome T E)
    (maxAttempts maxDelay multiplier : Nat) :
    Nat → Nat → Nat → Option T × List BackoffEvent
  | 0, _, _ => (none, [])
  | remaining + 1, attempt, delay =>
    match cond attempt with
    | .value t => (some t, [.attemptMade attempt])
    | _ =>
      if attempt < maxAttempts then
        let rest := backoffLoop cond maxAttempts maxDelay multiplier remaining
          (attempt + 1) (min (delay * multiplier) maxDelay)
        (rest.1, .attemptMade attempt :: .paused delay :: rest.2)
      else (none, [.attemptMade attempt])

/-- `SmartWaits.waitWithBackoff` (SmartWaits.ts, lines 429-467): resolve
the defaults (`maxAttempts = 5`, `initialDelay = 1000`,
`maxDelay = 30000`, `multiplier = 2`) and run the attempt loop from
attempt 1 with `delay = initialDelay`.  Returns the condition value (or
`none` after all attempts failed, the source's `null`) together with
the event timeline. -/
def waitWithBackoff {T E : Type} (cond : Nat → CondOutcome T E) (opts : BackoffOptions) :
    Option T × List BackoffEvent :=
  let maxAttempts := opts.maxAttempts.getD 5
  let initialDelay := opts.initialDelay.getD 1000
  let maxDelay := opts.maxDelay.getD 30000
  let multiplier := opts.multiplier.getD 2
  backoffLoop cond maxAttempts maxDelay multiplier maxAttempts 1 initialDelay

/-- Delay inserted immediately before attempt `k` in a backoff timeline:
the `paused` event directly preceding `attemptMade k`, if any. -/
def pauseBefore (k : Nat) : List BackoffEvent → Option Nat
  | .paused d :: .attemptMade j :: rest =>
    if j = k then some d else pauseBefore k (.attemptMade j :: rest)
  | _ :: rest => pauseBefore k rest
  | [] => none

/-- Result of a `retryOperation` call: the operation's value, a
propagated operation exception, or the fresh
`new Error('Retry operation failed')` thrown on the (only reachable
with `maxRetries = 0`) fall-out path after the loop. -/
inductive RetryResult (T E : Type) where
  | ok (t : T)
  | threw (e : E)
  | threwGeneric
  deriving DecidableEq

/-- Options record of `retryOperation`; the `onRetry` observer and the
`retryDelay` pause have no bearing on the returned value and are not
modelled. -/
structure RetryOptions where
  maxRetries : Option Nat := none
  retryDelay : Option Nat := none

/-- The `for (let attempt = 1; attempt <= maxRetries; attempt++)` loop
of `retryOperation`.  The operation is a function from the 1-indexed
attempt number to success or a thrown error.  On an error at
`attempt === maxRetries` the loop rethrows that very error; otherwise
it logs, calls `onRetry`, pauses and retries.  Falling out of the loop
(possible only when `maxRetries < 1`) throws the generic fresh error. -/
def retryLoop {T E : Type} (op : Nat → Except E T) (maxRetries : Nat) :
    Nat → Nat → RetryResult T E
  | 0, _ => .threwGeneric
  | remaining + 1, attempt =>
    match op attempt with
    | .ok t => .ok t
    | .error e =>
      if attempt = maxRetries then .threw e
      else retryLoop op maxRetries remaining (attempt + 1)

/-- `SmartWaits.retryOperation` (SmartWaits.ts, lines 524-557): resolve
the default `maxRetries = 3` and run the attempt loop from attempt 1. -/
def retryOperation {T E : Type} (op : Nat → Except E T) (opts : RetryOptions) :
    RetryResult T E :=
  let maxRetries := opts.maxRetries.getD 3
  retryLoop op maxRetries maxRetries 1

end SmartWaits

namespace NetworkMocking

/-!
Embedding of `NetworkMockingClass` (network-mocking utility source,
`src/unnamed/part_005`).  The mutable instance fields (`mockRoutes`,
`requestInterceptors`, `responseInterceptors`, `requestLogs`) become an
explicit `ServerState` threaded through the handlers.  JS string
operations used by the class are modelled over the character list of a
`String` so that they compute by kernel reduction; a `RegExp` is
modelled as an abstract test function `String → Bool`, matching the only
way the class uses one (`route.path.test(url)` /
`criteria.urlPattern.test(log.url)`).  Route objects live in per-method
arrays; object identity, which `removeMockRoute` relies on through
`indexOf`, is modelled by the index of the route in its method's array.
Dynamic responder functions, response serialization and the artificial
response delay do not affect the properties below and are not modelled.
-/

/-- JS `s.split('?')[0]`: the prefix of `s` before the first `'?'`. -/
def stripQuery (s : String) : String := ⟨s.data.takeWhile (fun c => c != '?')⟩

/-- Contiguous-substring test on character lists (JS `String.includes`). -/
def hasSub (sub : List Char) : List Char → Bool
  | [] => sub.isEmpty
  | c :: t => sub.isPrefixOf (c :: t) || hasSub sub t

/-- JS `s.includes(sub)`. -/
def jsIncludes (s sub : String) : Bool := hasSub sub.data s.data

/-- JS `s.startsWith(p)`. -/
def jsStartsWith (s p : String) : Bool := p.data.isPrefixOf s.data

/-- JS `s.endsWith(p)`. -/
def jsEndsWith (s p : String) : Bool := p.data.reverse.isPrefixOf s.data.reverse

/-- The `path` field of a `MockRoute`: a literal string or a `RegExp`,
the latter abstracted to its test function on a full URL string. -/
inductive RoutePath where
  | str (s : String)
  | pattern (test : String → Bool)

/-- `MockResponse` configuration record; `none` models an absent field. -/
structure MockResponse where
  status : Option Nat := none
  headers : Option (List (String × String)) := none
  body : Option String := none
  delay : Option Nat := none

/-- `MockRoute`: method, path matcher, static response and the optional
`times` budget (`none` = unlimited). -/
structure MockRoute where
  method : String
  path : RoutePath
  response : MockResponse
  times : Option Nat := none

/-- The request record `{ method, url, headers, body }` that
`handleRequest` builds after buffering the body (empty string when the
request carried no body). -/
structure Request where
  method : String
  url : String
  headers : List (String × String)
  body : String

/-- Partial record returned by a request interceptor; a `none` field is
absent and survives the `{ ...modifiedRequest, ...result }` spread. -/
structure RequestPatch where
  method : Option String := none
  url : Option String := none
  headers : Option (List (String × String)) := none
  body : Option String := none

/-- `RequestInterceptor`: returns a patch, or `null` (here `none`) for
"no change". -/
def RequestInterceptor : Type := Request → Option RequestPatch

/-- The spread `{ ...modifiedRequest, ...result }`: fields present in the
patch replace the previous value, absent fields keep it. -/
def applyRequestPatch (r : Request) (p : RequestPatch) : Request :=
  ⟨p.method.getD r.method, p.url.getD r.url, p.headers.getD r.headers, p.body.getD r.body⟩

/-- One step of the interceptor loop: a `null` result (the falsy branch
of `if (result)`) leaves the request unchanged. -/
def applyRequestInterceptor (r : Request) (i : RequestInterceptor) : Request :=
  match i r with
  | none => r
  | some p => applyRequestPatch r p

/-- The `for (const interceptor of this.requestInterceptors)` loop of
`handleRequest`: left fold in registration order. -/
def applyRequestInterceptors (chain : List RequestInterceptor) (r : Request) : Request :=
  chain.foldl applyRequestInterceptor r

/-- The response record built in `sendMockResponse` before the response
interceptors run (`status`, `headers`, `body`, plus the request echo). -/
structure ResponseRecord where
  status : Nat
  headers : List (String × String)
  body : Option String
  reqMethod : String
  reqUrl : String

/-- Partial record returned by a response interceptor. -/
structure ResponsePatch where
  status : Option Nat := none
  headers : Option (List (String × String)) := none
  body : Option String := none

/-- `ResponseInterceptor`: returns a patch, or `null` for "no change". -/
def ResponseInterceptor : Type := ResponseRecord → Option ResponsePatch

/-- The spread `{ ...modifiedResponse, ...result }` on the response side;
the `request` echo field is never patched (the patch type has no such
field). -/
def applyResponsePatch (r : ResponseRecord) (p : ResponsePatch) : ResponseRecord :=
  ⟨p.status.getD r.status, p.headers.getD r.headers,
    match p.body with
    | some b => some b
    | none => r.body,
    r.reqMethod, r.reqUrl⟩

/-- One step of the response interceptor loop of `sendMockResponse`. -/
def applyResponseInterceptor (r : ResponseRecord) (i : ResponseInterceptor) : ResponseRecord :=
  match i r with
  | none => r
  | some p => applyResponsePatch r p

/-- The `for (const interceptor of this.responseInterceptors)` loop of
`sendMockResponse`: left fold in registration order. -/
def applyResponseInterceptors (chain : List ResponseInterceptor) (r : ResponseRecord) :
    ResponseRecord :=
  chain.foldl applyResponseInterceptor r

/-- A `requestLogs` entry: the raw request data captured by
`handleRequest` (`body: body || undefined`, so an empty buffered body is
logged as absent); the wall-clock `timestamp` is not modelled. -/
structure RequestLogEntry where
  method : String
  url : String
  headers : List (String × String)
  body : Option String

/-- The mutable instance state of `NetworkMockingClass`: the
`Map<string, MockRoute[]>` route table (an association list keyed by
method, preserving key insertion order), both interceptor chains, and
the request log. -/
structure ServerState where
  mockRoutes : List (String × List MockRoute)
  requestInterceptors : List RequestInterceptor
  responseInterceptors : List ResponseInterceptor
  requestLogs : List RequestLogEntry

/-- The freshly constructed instance: every collection empty. -/
def emptyState : ServerState := ⟨[], [], [], []⟩

/-- `this.mockRoutes.get(method) || []`. -/
def routesFor (m : List (String × List MockRoute)) (method : String) : List MockRoute :=
  match m.find? (fun e => e.1 == method) with
  | some e => e.2
  | none => []

/-- `addMockRoute`'s effect on the table: create the method's array when
missing, then push the route at its end. -/
def mapPush (m : List (String × List MockRoute)) (method : String) (r : MockRoute) :
    List (String × List MockRoute) :=
  if (m.find? (fun e => e.1 == method)).isSome then
    m.map (fun e => if e.1 == method then (e.1, e.2 ++ [r]) else e)
  else m ++ [(method, [r])]

/-- `NetworkMockingClass.addMockRoute`. -/
def addMockRoute (st : ServerState) (route : MockRoute) : ServerState :=
  { st with mockRoutes := mapPush st.mockRoutes route.method route }

/-- `NetworkMockingClass.addRequestInterceptor` (array push). -/
def addRequestInterceptor (st : ServerState) (i : RequestInterceptor) : ServerState :=
  { st with requestInterceptors := st.requestInterceptors ++ [i] }

/-- `NetworkMockingClass.addResponseInterceptor` (array push). -/
def addResponseInterceptor (st : ServerState) (i : ResponseInterceptor) : ServerState :=
  { st with responseInterceptors := st.responseInterceptors ++ [i] }

/-- The per-route test inside `findMatchingRoute`: a string path is
compared on the query-stripped path component, exactly or by prefix when
the (query-stripped) registered path ends in `/`; a `RegExp` path is
tested against the full URL, query string included. -/
def routeMatches (route : MockRoute) (url : String) : Bool :=
  match route.path with
  | .str p =>
    let urlPath := stripQuery url
    let routePath := stripQuery p
    urlPath == routePath || (jsEndsWith routePath "/" && jsStartsWith urlPath routePath)
  | .pattern test => test url

/-- The scan of `findMatchingRoute` over one method's array: skip routes
whose `times` counter is exactly `0`, return the first remaining route
that matches, paired with its index (the object identity used later by
`removeMockRoute`). -/
def findMatchingRouteAux (url : String) : List MockRoute → Option (Nat × MockRoute)
  | [] => none
  | r :: rest =>
    if r.times == some 0 then
      (findMatchingRouteAux url rest).map (fun p => (p.1 + 1, p.2))
    else if routeMatches r url then some (0, r)
    else (findMatchingRouteAux url rest).map (fun p => (p.1 + 1, p.2))

/-- `NetworkMockingClass.findMatchingRoute`. -/
def findMatchingRoute (st : ServerState) (method url : String) : Option (Nat × MockRoute) :=
  findMatchingRouteAux url (routesFor st.mockRoutes method)

/-- The counter bookkeeping at the end of `sendMockResponse` applied to
the served route (identified by its index): when `times` is defined and
positive it is decremented, and on reaching zero the route is spliced
out of the array (`removeMockRoute` via `indexOf`). -/
def consumeAt (l : List MockRoute) (idx : Nat) : List MockRoute :=
  match l[idx]? with
  | none => l
  | some r =>
    match r.times with
    | none => l
    | some 0 => l
    | some (n + 1) =>
      if n = 0 then l.eraseIdx idx
      else l.set idx { r with times := some n }

/-- Pointwise update of one method's array in the route table. -/
def mapUpdate (m : List (String × List MockRoute)) (method : String)
    (f : List MockRoute → List MockRoute) : List (String × List MockRoute) :=
  m.map (fun e => if e.1 == method then (e.1, f e.2) else e)

/-- The visible result of handling one request: served by the route at
`idx` in `method`'s array, or the 404 naming the (interceptor-modified)
URL. -/
inductive HandleOutcome where
  | matched (method : String) (idx : Nat) (route : MockRoute)
  | notFound (url : String)

/-- The log entry `requestData` built by `handleRequest` from the raw
request, before interceptors and before matching. -/
def logEntryOf (req : Request) : RequestLogEntry :=
  ⟨req.method, req.url, req.headers, if req.body == "" then none else some req.body⟩

/-- `NetworkMockingClass.handleRequest`: append the raw request to the
log, run the request interceptor chain, look up the first matching
route for the (possibly rewritten) method and URL, and either serve it
(consuming one use of its budget) or fall through to the 404. -/
def handleRequest (st : ServerState) (req : Request) : ServerState × HandleOutcome :=
  let st1 : ServerState := { st with requestLogs := st.requestLogs ++ [logEntryOf req] }
  let modReq := applyRequestInterceptors st.requestInterceptors req
  match findMatchingRoute st1 modReq.method modReq.url with
  | some p =>
    ({ st1 with mockRoutes := mapUpdate st1.mockRoutes modReq.method (fun l => consumeAt l p.1) },
      .matched modReq.method p.1 p.2)
  | none => (st1, .notFound modReq.url)

/-- `criteria.urlPattern`: a literal string (substring search) or a
`RegExp` (abstract test function). -/
inductive UrlPattern where
  | str (s : String)
  | pattern (test : String → Bool)

/-- The criteria record of `findRequests`; `none` models an absent
field. -/
structure FindCriteria where
  method : Option String := none
  urlPattern : Option UrlPattern := none
  bodyContains : Option String := none

/-- JS truthiness of an optional string: present and non-empty. -/
def truthyStr : Option String → Bool
  | none => false
  | some s => !(s == "")

/-- The filter callback of `findRequests`, with JS truthiness guards
kept: a falsy (absent or empty) `method`/`bodyContains` criterion skips
its check, an absent `log.body` skips the `bodyContains` check, a falsy
(absent or empty-string) `urlPattern` skips its block, and a `RegExp`
pattern is always truthy. -/
def matchesCriteria (c : FindCriteria) (e : RequestLogEntry) : Bool :=
  if truthyStr c.method && !(e.method == c.method.getD "") then false
  else if (match c.urlPattern with
    | none => false
    | some (.str s) => !(s == "") && !(jsIncludes e.url s)
    | some (.pattern t) => !(t e.url)) then false
  else if truthyStr c.bodyContains && truthyStr e.body &&
      !(jsIncludes (e.body.getD "") (c.bodyContains.getD "")) then false
  else true

/-- `NetworkMockingClass.findRequests`. -/
def findRequests (st : ServerState) (c : FindCriteria) : List RequestLogEntry :=
  st.requestLogs.filter (fun e => matchesCriteria c e)

end NetworkMocking

namespace NetworkMocking

/-!
Aliasing model for `getRequestLogs`.  The relevant line of the source is
`return [...this.requestLogs]`: the caller receives a *fresh* array
holding the same entries, not the internal array itself.  Whether the
copy happens is invisible in a pure value semantics, so the arrays in
play are given explicit identities: a `Heap` is a store of arrays
addressed by allocation index, `this.requestLogs` is the array at some
reference `logRef`, and an in-place mutation of an array (push, splice,
assignment through any alias) is a `writeRef` of new contents at its
reference.  `getRequestLogs` allocates a fresh array at the next free
reference and copies the entries, exactly as the spread does. -/
abbrev Heap : Type := List (List RequestLogEntry)

/-- Contents of the array referenced by `r`. -/
def readRef (h : Heap) (r : Nat) : List RequestLogEntry := h.getD r []

/-- In-place mutation: replace the contents of the array at `r`. -/
def writeRef (h : Heap) (r : Nat) (v : List RequestLogEntry) : Heap := h.set r v

/-- `NetworkMockingClass.getRequestLogs`: `return [...this.requestLogs]`
— allocate a fresh array with the same entries and hand back its
reference. -/
def getRequestLogs (h : Heap) (logRef : Nat) : Heap × Nat :=
  (h ++ [readRef h logRef], h.length)

end NetworkMocking

namespace SmartWaits

/-- A condition that is never satisfied: every invocation returns the
`false` sentinel. -/
def condNever : Nat → CondOutcome Nat String := fun _ => .notYet

/-- A condition that throws on its first invocation and succeeds on the
second. -/
def condThrowThenOk : Nat → CondOutcome Nat String := fun i =>
  if i = 0 then .thrown "E0" else .value 7

/-- An operation that fails on every attempt with the same error. -/
def opAlwaysFails : Nat → Except String Nat := fun _ => .error "boom"

end SmartWaits

namespace NetworkMocking

/-- A sample static response used by concrete scenarios. -/
def sampleResp : MockResponse := ⟨some 200, none, some "ok", none⟩

/-- Scenario route `R1`: `GET /api/data` limited to one use. -/
def routeOnce (resp : MockResponse) : MockRoute := ⟨"GET", .str "/api/data", resp, some 1⟩

/-- Scenario route `R2`: `GET /api/data`, unlimited. -/
def routeMany (resp : MockResponse) : MockRoute := ⟨"GET", .str "/api/data", resp, none⟩

/-- Server state with `R1` registered before `R2`, both `GET /api/data`. -/
def scenarioState (resp1 resp2 : MockResponse) : ServerState :=
  addMockRoute (addMockRoute emptyState (routeOnce resp1)) (routeMany resp2)

/-- The scenario request `GET /api/data` with no body. -/
def apiReq : Request := ⟨"GET", "/api/data", [], ""⟩

/-- State after the first scenario request followed by `n` further
identical requests. -/
def serveN (resp1 resp2 : MockResponse) : Nat → ServerState
  | 0 => (handleRequest (scenarioState resp1 resp2) apiReq).1
  | n + 1 => (handleRequest (serveN resp1 resp2 n) apiReq).1

/-- The model of the exact-match regex `^/api/data$`: a `RegExp` whose
test holds exactly on the full string `/api/data`. -/
def exactApiData : String → Bool := fun u => u == "/api/data"

/-- A route whose path is the exact-match regex `^/api/data$`. -/
def patRouteApiData : MockRoute := ⟨"GET", .pattern exactApiData, sampleResp, none⟩

/-- A string-path route ending in `/`, matched by prefix. -/
def prefRoute : MockRoute := ⟨"GET", .str "/api/", sampleResp, none⟩

/-- A request that matches no registered route. -/
def reqMiss : Request := ⟨"GET", "/nonexistent", [], ""⟩

/-- A logged request that carried no body. -/
def entryNoBody : RequestLogEntry := ⟨"GET", "/a", [], none⟩

/-- A logged request with a body. -/
def entryBody : RequestLogEntry := ⟨"POST", "/b", [], some "hello world"⟩

/-- A server state whose log holds exactly the body-less entry. -/
def stLogNoBody : ServerState := ⟨[], [], [], [entryNoBody]⟩

/-- A request interceptor that prepends a header `X: 1`. -/
def iSetHeader : RequestInterceptor := fun r =>
  some ⟨none, none, some (("X", "1") :: r.headers), none⟩

/-- A request interceptor that returns `null` (no change). -/
def iNoChange : RequestInterceptor := fun _ => none

/-- A one-array heap for the aliasing witness. -/
def heapW : Heap := [[entryNoBody]]

/-- The `findRequests` matching predicate exactly as the claim sentence
states it: method equality, `urlPattern` as a substring (string) or a
test of the URL (pattern), and `bodyContains` as a substring of the
entry's body — so an entry without a body fails a supplied
`bodyContains`; an absent criterion constrains nothing.  Stated for
comparison with the translated `matchesCriteria`. -/
def claimedMatches (c : FindCriteria) (e : RequestLogEntry) : Bool :=
  (match c.method with
    | none => true
    | some mth => e.method == mth) &&
  (match c.urlPattern with
    | none => true
    | some (.str s) => jsIncludes e.url s
    | some (.pattern t) => t e.url) &&
  (match c.bodyContains with
    | none => true
    | some b => jsIncludes (e.body.getD "") b)

/-- The matching predicate as amended to the code's behavior: a supplied
empty-string `method` matches every entry, and an entry whose body is
absent (or empty, logged as absent) passes any `bodyContains`
criterion; everything else as the claim states. -/
def amendedMatches (c : FindCriteria) (e : RequestLogEntry) : Bool :=
  (match c.method with
    | none => true
    | some mth => mth == "" || e.method == mth) &&
  (match c.urlPattern with
    | none => true
    | some (.str s) => jsIncludes e.url s
    | some (.pattern t) => t e.url) &&
  (match c.bodyContains with
    | none => true
    | some b => !(truthyStr e.body) || jsIncludes (e.body.getD "") b)

end NetworkMocking

namespace SmartWaits

/-- With fuel covering the time budget, a run whose condition never
produces a value (and whose exceptions, if any, are being ignored) ends
in the logged-`null` timeout result. -/
theorem fluentLoop_timeout {T E : Type} (cond : Nat → CondOutcome T E) (ignoreEx : Bool)
    (timeout interval : Nat) (msg : String)
    (hcond : ∀ i, cond i = CondOutcome.notYet ∨
      (ignoreEx = true ∧ ∃ e, cond i = CondOutcome.thrown e)) :
    ∀ fuel elapsed i, timeout ≤ elapsed + fuel * interval →
      fluentLoop cond ignoreEx timeout interval msg elapsed i fuel =
        some (FluentResult.nullTimeout msg) := by
  intro fuel
  induction fuel with
  | zero =>
    intro elapsed i h
    rw [fluentLoop, if_neg (by omega)]
  | succ f ih =>
    intro elapsed i h
    rw [Nat.succ_mul] at h
    rw [fluentLoop]
    by_cases he : elapsed < timeout
    · rw [if_pos he]
      rcases hcond i with hni | ⟨hig, e, hth⟩
      · rw [hni]
        exact ih (elapsed + interval) (i + 1) (by omega)
      · subst hig
        rw [hth]
        simp only [if_true]
        exact ih (elapsed + interval) (i + 1) (by omega)
    · rw [if_neg he]

/-- C2 (amended): with a positive polling interval, a condition that
never produces a value within the time budget (every poll is the
sentinel, or throws while `ignoreExceptions` resolves to `true`) makes
`fluentWait` log the caller-supplied timeout message and return `null`;
in particular no success value is returned and no error is thrown.  The
claim as frozen instead asserts a thrown `TimeoutError` carrying the
message; the code returns `null` — see the counterexample. -/
theorem fluentWait_timeout_returns_null {T E : Type} (cond : Nat → CondOutcome T E)
    (timeout interval : Nat) (msg : String) (igOpt : Option Bool)
    (hpos : 1 ≤ interval)
    (hcond : ∀ i, cond i = CondOutcome.notYet ∨
      (igOpt.getD true = true ∧ ∃ e, cond i = CondOutcome.thrown e)) :
    fluentWait cond ⟨some timeout, some msg, igOpt, some interval⟩ =
      some (FluentResult.nullTimeout msg) := by
  unfold fluentWait
  simp only [Option.getD_some]
  refine fluentLoop_timeout cond _ timeout interval msg hcond (timeout + 1) 0 0 ?_
  have h2 : (timeout + 1) * 1 ≤ (timeout + 1) * interval :=
    Nat.mul_le_mul_left _ hpos
  simpa using le_trans (Nat.le_succ timeout) (by simpa using h2)

/-- C2 counterexample: on a concrete never-satisfied condition the call
returns `null` (with the message logged), and does not raise any error
carrying the timeout message. -/
theorem fluentWait_timeout_cex :
    fluentWait condNever ⟨some 100, some "request never arrived", none, some 50⟩ =
        some (FluentResult.nullTimeout "request never arrived") ∧
      fluentWait condNever ⟨some 100, some "request never arrived", none, some 50⟩ ≠
        some (FluentResult.raised "request never arrived") := by
  decide

/-- Witness for the C2 theorem at a concrete input. -/
theorem fluentWait_timeout_returns_null_witness :
    fluentWait condNever ⟨some 20, some "slow backend", none, some 10⟩ =
      some (FluentResult.nullTimeout "slow backend") :=
  fluentWait_timeout_returns_null condNever 20 10 "slow backend" none (by decide)
    (fun _ => Or.inl rfl)

/-- With `ignoreExceptions = true` the polling loop never lets an
exception escape. -/
theorem fluentLoop_true_never_raises {T E : Type} (cond : Nat → CondOutcome T E)
    (timeout interval : Nat) (msg : String) :
    ∀ fuel elapsed i e,
      fluentLoop cond true timeout interval msg elapsed i fuel ≠
        some (FluentResult.raised e) := by
  intro fuel
  induction fuel with
  | zero =>
    intro elapsed i e h
    rw [fluentLoop] at h
    by_cases he : elapsed < timeout
    · rw [if_pos he] at h
      exact Option.noConfusion h
    · rw [if_neg he] at h
      simp at h
  | succ f ih =>
    intro elapsed i e h
    rw [fluentLoop] at h
    by_cases he : elapsed < timeout
    · rw [if_pos he] at h
      cases hc : cond i with
      | value t => rw [hc] at h; simp at h
      | notYet => rw [hc] at h; exact ih (elapsed + interval) (i + 1) e h
      | thrown e2 =>
        rw [hc] at h
        simp only [if_true] at h
        exact ih (elapsed + interval) (i + 1) e h
    · rw [if_neg he] at h
      simp at h

/-- C3 (amended): the default of `ignoreExceptions` is `true` — with the
option absent, an exception thrown by the condition is absorbed
(logged, treated as not-yet-satisfied) and polling continues, so no
exception ever escapes the call; only an explicit
`ignoreExceptions: false` makes the first thrown exception propagate
immediately, aborting the wait.  The claim as frozen says the default is
fail-fast; the code's default is the absorbing behavior — see the
counterexample. -/
theorem fluentWait_default_absorbs_exceptions :
    (∀ (T E : Type) (cond : Nat → CondOutcome T E) (t : Option Nat) (m : Option String)
        (p : Option Nat) (e : E),
        fluentWait cond ⟨t, m, none, p⟩ ≠ some (FluentResult.raised e)) ∧
    (∀ (T E : Type) (cond : Nat → CondOutcome T E) (t : Nat) (m : Option String)
        (p : Option Nat) (e : E), cond 0 = CondOutcome.thrown e → 0 < t →
        fluentWait cond ⟨some t, m, some false, p⟩ = some (FluentResult.raised e)) := by
  constructor
  · intro T E cond t m p e
    unfold fluentWait
    exact fluentLoop_true_never_raises cond _ _ _ _ _ _ e
  · intro T E cond t m p e hc ht
    unfold fluentWait
    simp only [Option.getD_some]
    rw [fluentLoop, if_pos ht, hc]
    rfl

/-- C3 counterexample: with the option record left entirely default and
a condition that throws on its first poll and succeeds on its second,
the call returns the success — the exception was absorbed and polling
continued, not propagated. -/
theorem fluentWait_default_absorbs_cex :
    fluentWait condThrowThenOk ⟨none, none, none, none⟩ = some (FluentResult.ok 7) ∧
      fluentWait condThrowThenOk ⟨none, none, none, none⟩ ≠
        some (FluentResult.raised "E0") := by
  decide

/-- Witness for the C3 theorem at a concrete input (the explicit
fail-fast half). -/
theorem fluentWait_default_absorbs_exceptions_witness :
    fluentWait condThrowThenOk ⟨some 100, none, some false, some 50⟩ =
      some (FluentResult.raised "E0") :=
  fluentWait_default_absorbs_exceptions.2 Nat String condThrowThenOk 100 none (some 50) "E0"
    rfl (by decide)

/-- An operation failing identically on every attempt drives the retry
loop to rethrow that error on the final attempt. -/
theorem retryLoop_allFail {T E : Type} (op : Nat → Except E T) (e : E) (maxRetries : Nat)
    (hop : ∀ i, op i = Except.error e) :
    ∀ remaining attempt, remaining + attempt = maxRetries + 1 → 1 ≤ remaining →
      retryLoop op maxRetries remaining attempt = RetryResult.threw e := by
  intro remaining
  induction remaining with
  | zero =>
    intro attempt _ h
    omega
  | succ r ih =>
    intro attempt hsum _
    simp only [retryLoop, hop attempt]
    by_cases hat : attempt = maxRetries
    · simp [hat]
    · rw [if_neg hat]
      exact ih (attempt + 1) (by omega) (by omega)

/-- C4: `retryOperation` with an operation that throws the same error on
every attempt propagates, after `maxRetries` attempts, exactly the
original error value (not the generic wrapper error, not a rethrow of
anything else). -/
theorem retryOperation_rethrows_original {T E : Type} (op : Nat → Except E T) (e : E)
    (maxRetries : Nat) (retryDelay : Option Nat)
    (hop : ∀ i, op i = Except.error e) (hpos : 1 ≤ maxRetries) :
    retryOperation op ⟨some maxRetries, retryDelay⟩ = RetryResult.threw e := by
  unfold retryOperation
  simp only [Option.getD_some]
  exact retryLoop_allFail op e maxRetries hop maxRetries 1 rfl hpos

/-- Witness for the C4 theorem at a concrete input. -/
theorem retryOperation_rethrows_original_witness :
    retryOperation opAlwaysFails ⟨some 3, none⟩ = RetryResult.threw "boom" :=
  retryOperation_rethrows_original opAlwaysFails "boom" 3 none (fun _ => rfl) (by decide)

end SmartWaits

namespace SmartWaits

/-- Clamping before multiplying is the same as clamping after, when the
factor is at least one: this is why the nested
`min(min(..) * multiplier, maxDelay)` updates collapse to a closed
form. -/
theorem min_mul_clamp (x c y : Nat) (hy : 1 ≤ y) : min (min x c * y) c = min (x * y) c := by
  rcases Nat.le_total x c with h | h
  · rw [Nat.min_eq_left h]
  · have h1 : c ≤ c * y := by
      have := Nat.mul_le_mul (le_refl c) hy
      simpa using this
    have h2 : c ≤ x * y := by
      have := Nat.mul_le_mul h hy
      simpa using this
    rw [Nat.min_eq_right h, Nat.min_eq_right h1, Nat.min_eq_right h2]

/-- Dropping a leading condition invocation does not change which pause
precedes a given attempt. -/
theorem pauseBefore_attempt_cons (k j : Nat) (l : List BackoffEvent) :
    pauseBefore k (.attemptMade j :: l) = pauseBefore k l := rfl

/-- A pause directly followed by an attempt is the pause before exactly
that attempt. -/
theorem pauseBefore_pause_attempt (k d j : Nat) (rest : List BackoffEvent) :
    pauseBefore k (.paused d :: .attemptMade j :: rest) =
      if j = k then some d else pauseBefore k (.attemptMade j :: rest) := rfl

/-- Every (non-exhausted) run of the backoff loop opens with the current
attempt's condition invocation. -/
theorem backoffLoop_head {T E : Type} (cond : Nat → CondOutcome T E)
    (M dM m r a d : Nat) :
    ((backoffLoop cond M dM m (r + 1) a d).2).head? = some (.attemptMade a) := by
  rcases hcv : cond a with t | _ | e
  · simp only [backoffLoop, hcv, List.head?]
  · by_cases ha : a < M
    · simp only [backoffLoop, hcv, if_pos ha, List.head?]
    · simp only [backoffLoop, hcv, if_neg ha, List.head?]
  · by_cases ha : a < M
    · simp only [backoffLoop, hcv, if_pos ha, List.head?]
    · simp only [backoffLoop, hcv, if_neg ha, List.head?]

/-- Timeline of an iteration whose condition succeeds: just the
attempt. -/
theorem backoffLoop_trace_value {T E : Type} (cond : Nat → CondOutcome T E)
    (M dM m r a d : Nat) (t : T) (hc : cond a = .value t) :
    (backoffLoop cond M dM m (r + 1) a d).2 = [.attemptMade a] := by
  simp only [backoffLoop, hc]

/-- Timeline of a failed final attempt: just the attempt, no pause. -/
theorem backoffLoop_trace_fail_last {T E : Type} (cond : Nat → CondOutcome T E)
    (M dM m r a d : Nat) (hc : ∀ t, cond a ≠ .value t) (ha : ¬ a < M) :
    (backoffLoop cond M dM m (r + 1) a d).2 = [.attemptMade a] := by
  rcases hcv : cond a with t | _ | e
  · exact absurd hcv (hc t)
  · simp only [backoffLoop, hcv, if_neg ha]
  · simp only [backoffLoop, hcv, if_neg ha]

/-- Timeline of a failed non-final attempt: the attempt, the pause for
the current delay, then the rest of the run with the updated, clamped
delay. -/
theorem backoffLoop_trace_fail_step {T E : Type} (cond : Nat → CondOutcome T E)
    (M dM m r a d : Nat) (hc : ∀ t, cond a ≠ .value t) (ha : a < M) :
    (backoffLoop cond M dM m (r + 1) a d).2 =
      .attemptMade a :: .paused d ::
        (backoffLoop cond M dM m r (a + 1) (min (d * m) dM)).2 := by
  rcases hcv : cond a with t | _ | e
  · exact absurd hcv (hc t)
  · simp only [backoffLoop, hcv, if_pos ha]
  · simp only [backoffLoop, hcv, if_pos ha]

/-- Invariant of the backoff loop: in the timeline of a run entered at
attempt `a` with current delay `d ≤ maxDelay`, every recorded pause
precedes an attempt strictly beyond `a`, and the pause before attempt
`k` is the geometric delay `min (d * m ^ (k - a - 1)) dM`. -/
theorem backoffLoop_pause_schedule {T E : Type} (cond : Nat → CondOutcome T E)
    (M dM m : Nat) (hm : 1 ≤ m) :
    ∀ remaining a d, remaining + a = M + 1 → d ≤ dM →
      ∀ k v, pauseBefore k (backoffLoop cond M dM m remaining a d).2 = some v →
        a + 1 ≤ k ∧ v = min (d * m ^ (k - (a + 1))) dM := by
  intro remaining
  induction remaining with
  | zero =>
    intro a d _ _ k v hpb
    simp only [backoffLoop, pauseBefore] at hpb
    exact Option.noConfusion hpb
  | succ r ih =>
    intro a d hsum hd k v hpb
    have main : (∀ t, cond a ≠ CondOutcome.value t) →
        a + 1 ≤ k ∧ v = min (d * m ^ (k - (a + 1))) dM := by
      intro hcnv
      by_cases ha : a < M
      · rw [backoffLoop_trace_fail_step cond M dM m r a d hcnv ha] at hpb
        have hr : 1 ≤ r := by omega
        obtain ⟨r', rfl⟩ : ∃ r', r = r' + 1 := ⟨r - 1, by omega⟩
        have hhead := backoffLoop_head cond M dM m r' (a + 1) (min (d * m) dM)
        obtain ⟨rest', hsplit⟩ :
            ∃ rest', (backoffLoop cond M dM m (r' + 1) (a + 1) (min (d * m) dM)).2 =
              .attemptMade (a + 1) :: rest' := by
          cases hx : (backoffLoop cond M dM m (r' + 1) (a + 1) (min (d * m) dM)).2 with
          | nil => rw [hx] at hhead; exact absurd hhead (by simp)
          | cons h0 t0 =>
            rw [hx] at hhead
            simp only [List.head?_cons, Option.some_inj] at hhead
            exact ⟨t0, by rw [hhead]⟩
        rw [pauseBefore_attempt_cons, hsplit, pauseBefore_pause_attempt] at hpb
        by_cases hk : a + 1 = k
        · rw [if_pos hk] at hpb
          have hv : v = d := by
            have := hpb
            simp only [Option.some_inj] at this
            exact this.symm
          refine ⟨by omega, ?_⟩
          rw [hv, ← hk]
          simp [Nat.min_eq_left hd]
        · rw [if_neg hk, pauseBefore_attempt_cons] at hpb
          have hres :
              pauseBefore k (backoffLoop cond M dM m (r' + 1) (a + 1) (min (d * m) dM)).2 =
                some v := by
            rw [hsplit, pauseBefore_attempt_cons]
            exact hpb
          obtain ⟨hk2, hv⟩ :=
            ih (a + 1) (min (d * m) dM) (by omega) (Nat.min_le_right _ _) k v hres
          refine ⟨by omega, ?_⟩
          have hy : 1 ≤ m ^ (k - (a + 2)) := Nat.one_le_pow _ _ (by omega)
          have harg : d * m * m ^ (k - (a + 2)) = d * m ^ (k - (a + 1)) := by
            have he : k - (a + 1) = (k - (a + 2)) + 1 := by omega
            rw [he, pow_succ]
            ring
          rw [hv, min_mul_clamp _ _ _ hy, harg]
      · rw [backoffLoop_trace_fail_last cond M dM m r a d hcnv ha] at hpb
        simp only [pauseBefore_attempt_cons, pauseBefore] at hpb
        exact Option.noConfusion hpb
    rcases hcv : cond a with t | _ | e
    · rw [backoffLoop_trace_value cond M dM m r a d t hcv] at hpb
      simp only [pauseBefore_attempt_cons, pauseBefore] at hpb
      exact Option.noConfusion hpb
    · exact main (by rw [hcv]; intro t h; exact CondOutcome.noConfusion h)
    · exact main (by rw [hcv]; intro t h; exact CondOutcome.noConfusion h)

end SmartWaits

namespace SmartWaits

/-- C1 (amended): for every condition and every backoff configuration
with `maxAttempts ≥ 1`, `multiplier ≥ 1` and `initialDelay ≤ maxDelay`,
the run opens with attempt 1, no delay is inserted before attempt 1,
and the delay inserted before attempt `k` (whenever one occurs,
necessarily `k ≥ 2`) equals
`min(initialDelay * multiplier^(k-2), maxDelay)`.  The claim as frozen
uses exponent `k-1`; the code pauses for the *current* delay before
multiplying it, so the exponent is `k-2` — see the counterexample. -/
theorem waitWithBackoff_delay_schedule {T E : Type} (cond : Nat → CondOutcome T E)
    (M d0 dM m : Nat) (hM : 1 ≤ M) (hm : 1 ≤ m) (hd : d0 ≤ dM) :
    (∀ k v,
        pauseBefore k (waitWithBackoff cond ⟨some M, some d0, some dM, some m⟩).2 = some v →
          2 ≤ k ∧ v = min (d0 * m ^ (k - 2)) dM) ∧
      pauseBefore 1 (waitWithBackoff cond ⟨some M, some d0, some dM, some m⟩).2 = none ∧
      ((waitWithBackoff cond ⟨some M, some d0, some dM, some m⟩).2).head? =
        some (.attemptMade 1) := by
  have hw : (waitWithBackoff cond ⟨some M, some d0, some dM, some m⟩) =
      backoffLoop cond M dM m M 1 d0 := rfl
  refine ⟨?_, ?_, ?_⟩
  · intro k v hpb
    rw [hw] at hpb
    have hsch := backoffLoop_pause_schedule cond M dM m hm M 1 d0 (by omega) hd k v hpb
    exact ⟨by omega, by simpa using hsch.2⟩
  · rw [hw]
    cases hx : pauseBefore 1 (backoffLoop cond M dM m M 1 d0).2 with
    | none => rfl
    | some v =>
      have hsch := backoffLoop_pause_schedule cond M dM m hm M 1 d0 (by omega) hd 1 v hx
      exact absurd hsch.1 (by omega)
  · rw [hw]
    obtain ⟨M', rfl⟩ : ∃ M', M = M' + 1 := ⟨M - 1, by omega⟩
    exact backoffLoop_head cond (M' + 1) dM m M' 1 d0

/-- C1 counterexample: with `maxAttempts = 3`, `initialDelay = 1000`,
`maxDelay = 30000`, `multiplier = 2` and a never-satisfied condition,
the pause before attempt 2 is 1000 ms, whereas the claim's formula
`min(initialDelay * multiplier^(2-1), maxDelay)` gives 2000 ms. -/
theorem waitWithBackoff_delay_cex :
    pauseBefore 2 (waitWithBackoff condNever ⟨some 3, some 1000, some 30000, some 2⟩).2 =
        some 1000 ∧
      (1000 : Nat) ≠ min (1000 * 2 ^ (2 - 1)) 30000 := by
  decide

/-- Witness for the C1 theorem at a concrete input: the pause before
attempt 3 of a 3-attempt run with `initialDelay = 1`, `maxDelay = 30`
and `multiplier = 2` is `min (1 * 2 ^ (3 - 2)) 30 = 2`. -/
theorem waitWithBackoff_delay_schedule_witness :
    2 ≤ 3 ∧ (2 : Nat) = min (1 * 2 ^ (3 - 2)) 30 :=
  (waitWithBackoff_delay_schedule condNever 3 1 30 2 (by decide) (by decide) (by decide)).1
    3 2 (by decide)

end SmartWaits

namespace NetworkMocking

/-- Characterization of the route scan: a hit is the first route in
registration order that still has budget and matches — every earlier
route is either exhausted (`times = 0`) or fails the path test. -/
theorem findMatchingRouteAux_spec (url : String) :
    ∀ (routes : List MockRoute) (i : Nat) (r : MockRoute),
      findMatchingRouteAux url routes = some (i, r) →
        routes[i]? = some r ∧ ¬ r.times = some 0 ∧ routeMatches r url = true ∧
        ∀ j r', j < i → routes[j]? = some r' →
          r'.times = some 0 ∨ routeMatches r' url = false := by
  intro routes
  induction routes with
  | nil =>
    intro i r h
    simp [findMatchingRouteAux] at h
  | cons hd tl ih =>
    intro i r h
    rw [findMatchingRouteAux] at h
    by_cases h0 : (hd.times == some 0) = true
    · rw [if_pos h0] at h
      rcases hx : findMatchingRouteAux url tl with _ | p
      · rw [hx] at h
        simp at h
      · rw [hx] at h
        simp only [Option.map_some', Option.some_inj] at h
        have hi : p.1 + 1 = i := congrArg Prod.fst h
        have hr : p.2 = r := congrArg Prod.snd h
        obtain ⟨hspec1, hspec2, hspec3, hspec4⟩ := ih p.1 p.2 (by rw [hx])
        subst hi
        subst hr
        refine ⟨by simpa using hspec1, hspec2, hspec3, ?_⟩
        intro j r' hj hjr
        cases j with
        | zero =>
          left
          have : hd = r' := by simpa using hjr
          rw [← this]
          exact beq_iff_eq.mp h0
        | succ j' =>
          exact hspec4 j' r' (by omega) (by simpa using hjr)
    · rw [if_neg h0] at h
      by_cases hmm : (routeMatches hd url) = true
      · rw [if_pos hmm] at h
        simp only [Option.some_inj] at h
        have hi : i = 0 := (congrArg Prod.fst h).symm
        have hr : r = hd := (congrArg Prod.snd h).symm
        subst hi
        subst hr
        refine ⟨by simp, fun hc => h0 (beq_iff_eq.mpr hc), hmm, ?_⟩
        intro j r' hj _
        omega
      · rw [if_neg hmm] at h
        rcases hx : findMatchingRouteAux url tl with _ | p
        · rw [hx] at h
          simp at h
        · rw [hx] at h
          simp only [Option.map_some', Option.some_inj] at h
          have hi : p.1 + 1 = i := congrArg Prod.fst h
          have hr : p.2 = r := congrArg Prod.snd h
          obtain ⟨hspec1, hspec2, hspec3, hspec4⟩ := ih p.1 p.2 (by rw [hx])
          subst hi
          subst hr
          refine ⟨by simpa using hspec1, hspec2, hspec3, ?_⟩
          intro j r' hj hjr
          cases j with
          | zero =>
            right
            have : hd = r' := by simpa using hjr
            rw [← this]
            simpa using hmm
          | succ j' =>
            exact hspec4 j' r' (by omega) (by simpa using hjr)

/-- Serving the unbounded scenario route leaves the route table (and the
empty interceptor chain) unchanged; the request is answered by that
route at index 0. -/
theorem handleRequest_fixed (resp2 : MockResponse) (st : ServerState)
    (hroutes : st.mockRoutes = [("GET", [routeMany resp2])])
    (hints : st.requestInterceptors = []) :
    (handleRequest st apiReq).2 = .matched "GET" 0 (routeMany resp2) ∧
      (handleRequest st apiReq).1.mockRoutes = [("GET", [routeMany resp2])] ∧
      (handleRequest st apiReq).1.requestInterceptors = [] := by
  obtain ⟨mr, ri, rsi, logs⟩ := st
  dsimp only at hroutes hints
  subst hroutes
  subst hints
  exact ⟨rfl, rfl, rfl⟩

/-- After the first scenario request (and any number of further ones)
the table holds exactly the unbounded route. -/
theorem serveN_fixed (resp1 resp2 : MockResponse) :
    ∀ n, (serveN resp1 resp2 n).mockRoutes = [("GET", [routeMany resp2])] ∧
      (serveN resp1 resp2 n).requestInterceptors = [] := by
  intro n
  induction n with
  | zero => exact ⟨rfl, rfl⟩
  | succ k ih =>
    have h := handleRequest_fixed resp2 (serveN resp1 resp2 k) ih.1 ih.2
    exact ⟨h.2.1, h.2.2⟩

/-- C5: routes of one method are scanned in registration order with the
first non-exhausted matching route winning (earlier routes are either
exhausted or non-matching), and in the concrete scenario — `R1`
(`times: 1`) registered before `R2` (unbounded), both `GET /api/data` —
the first request is served by `R1`, whose budget is consumed and whose
entry is pruned from the table, and every subsequent request is served
by `R2`, with the table stable at `[R2]`. -/
theorem route_first_match_and_budget :
    (∀ (url : String) (routes : List MockRoute) (i : Nat) (r : MockRoute),
        findMatchingRouteAux url routes = some (i, r) →
          routes[i]? = some r ∧ ¬ r.times = some 0 ∧ routeMatches r url = true ∧
          ∀ j r', j < i → routes[j]? = some r' →
            r'.times = some 0 ∨ routeMatches r' url = false) ∧
    (∀ resp1 resp2 : MockResponse,
        (handleRequest (scenarioState resp1 resp2) apiReq).2 =
            .matched "GET" 0 (routeOnce resp1) ∧
          routesFor (handleRequest (scenarioState resp1 resp2) apiReq).1.mockRoutes "GET" =
            [routeMany resp2] ∧
          ∀ n, (handleRequest (serveN resp1 resp2 n) apiReq).2 =
              .matched "GET" 0 (routeMany resp2) ∧
            routesFor (handleRequest (serveN resp1 resp2 n) apiReq).1.mockRoutes "GET" =
              [routeMany resp2]) := by
  refine ⟨findMatchingRouteAux_spec, ?_⟩
  intro resp1 resp2
  refine ⟨rfl, rfl, ?_⟩
  intro n
  obtain ⟨hmr, hri⟩ := serveN_fixed resp1 resp2 n
  obtain ⟨hout, hmr', _⟩ := handleRequest_fixed resp2 (serveN resp1 resp2 n) hmr hri
  refine ⟨hout, ?_⟩
  rw [hmr']
  rfl

/-- Witness for the C5 theorem at a concrete input: a one-route table
already yields the first-match facts. -/
theorem route_first_match_and_budget_witness :
    [routeMany sampleResp][0]? = some (routeMany sampleResp) ∧
      ¬ (routeMany sampleResp).times = some 0 ∧
      routeMatches (routeMany sampleResp) "/api/data" = true ∧
      ∀ j r', j < 0 → [routeMany sampleResp][j]? = some r' →
        r'.times = some 0 ∨ routeMatches r' "/api/data" = false :=
  route_first_match_and_budget.1 "/api/data" [routeMany sampleResp] 0
    (routeMany sampleResp) rfl

end NetworkMocking

namespace NetworkMocking

/-- C6: a string-path route decides on the query-stripped path component
(its verdict is characterized by equality of stripped paths, or by
prefix when the stripped registered path ends in `/`, and is invariant
under changes to the query string), while a `RegExp`-path route tests
the full URL including the query string; on the concrete URL
`/api/data?x=1` the two matcher kinds disagree: the string route
`/api/data` matches, the exact regex `^/api/data$` does not. -/
theorem routeMatches_query_asymmetry :
    (∀ (p : String) (resp : MockResponse) (t : Option Nat) (mth url1 url2 : String),
        stripQuery url1 = stripQuery url2 →
          routeMatches ⟨mth, .str p, resp, t⟩ url1 =
            routeMatches ⟨mth, .str p, resp, t⟩ url2) ∧
    (∀ (p : String) (resp : MockResponse) (t : Option Nat) (mth url : String),
        routeMatches ⟨mth, .str p, resp, t⟩ url = true ↔
          (stripQuery url = stripQuery p ∨
            ("/".data <:+ (stripQuery p).data ∧
              (stripQuery p).data <+: (stripQuery url).data))) ∧
    (∀ (test : String → Bool) (resp : MockResponse) (t : Option Nat) (mth url : String),
        routeMatches ⟨mth, .pattern test, resp, t⟩ url = test url) ∧
    (routeMatches (routeMany sampleResp) "/api/data?x=1" = true ∧
      routeMatches patRouteApiData "/api/data?x=1" = false ∧
      routeMatches patRouteApiData "/api/data" = true ∧
      routeMatches prefRoute "/api/users?x=1" = true) := by
  refine ⟨?_, ?_, ?_, rfl, rfl, rfl, rfl⟩
  · intro p resp t mth url1 url2 hq
    simp only [routeMatches]
    rw [hq]
  · intro p resp t mth url
    simp only [routeMatches, jsEndsWith, jsStartsWith, Bool.or_eq_true, Bool.and_eq_true,
      List.isPrefixOf_iff_prefix, beq_iff_eq]
    constructor
    · rintro (h | ⟨h1, h2⟩)
      · exact Or.inl h
      · exact Or.inr ⟨(@List.reverse_prefix Char "/".data (stripQuery p).data).mp h1, h2⟩
    · rintro (h | ⟨h1, h2⟩)
      · exact Or.inl h
      · exact Or.inr ⟨(@List.reverse_prefix Char "/".data (stripQuery p).data).mpr h1, h2⟩
  · intro test resp t mth url
    rfl

/-- Witness for the C6 theorem at a concrete input: query-string
invariance applied to `/api/data?x=1` versus `/api/data?y=2`. -/
theorem routeMatches_query_asymmetry_witness :
    routeMatches ⟨"GET", .str "/api/data", sampleResp, none⟩ "/api/data?x=1" =
      routeMatches ⟨"GET", .str "/api/data", sampleResp, none⟩ "/api/data?y=2" :=
  routeMatches_query_asymmetry.1 "/api/data" sampleResp none "GET" "/api/data?x=1"
    "/api/data?y=2" (by decide)

end NetworkMocking

namespace NetworkMocking

/-- The log append of `handleRequest` happens regardless of how (or
whether) the request is matched. -/
theorem handleRequest_log_append (st : ServerState) (req : Request) :
    (handleRequest st req).1.requestLogs = st.requestLogs ++ [logEntryOf req] := by
  simp only [handleRequest]
  split <;> rfl

/-- A method-only criterion accepts any entry with that method. -/
theorem matchesCriteria_method_self (mth : String) (e : RequestLogEntry)
    (he : e.method = mth) :
    matchesCriteria ⟨some mth, none, none⟩ e = true := by
  simp [matchesCriteria, truthyStr, he]

/-- C7: every handled request appends its (raw, pre-interceptor) log
entry to the request log — the new log is always the old log plus that
entry, whatever the matching outcome — and in particular a request that
matches no route (answered 404) is still found by a `findRequests`
query on its method. -/
theorem request_logged_before_matching :
    (∀ (st : ServerState) (req : Request),
        (handleRequest st req).1.requestLogs = st.requestLogs ++ [logEntryOf req]) ∧
    (∀ (st : ServerState) (req : Request) (url : String),
        (handleRequest st req).2 = .notFound url →
          logEntryOf req ∈
            findRequests (handleRequest st req).1 ⟨some req.method, none, none⟩) := by
  refine ⟨handleRequest_log_append, ?_⟩
  intro st req url _
  unfold findRequests
  apply List.mem_filter.mpr
  constructor
  · rw [handleRequest_log_append]
    exact List.mem_append_right _ (List.mem_singleton_self _)
  · exact matchesCriteria_method_self req.method (logEntryOf req) rfl

/-- Witness for the C7 theorem at a concrete input: the unmatched
`GET /nonexistent` request is in the queried log. -/
theorem request_logged_before_matching_witness :
    logEntryOf reqMiss ∈
      findRequests (handleRequest emptyState reqMiss).1 ⟨some reqMiss.method, none, none⟩ :=
  request_logged_before_matching.2 emptyState reqMiss "/nonexistent" rfl

/-- C8: interceptor chains are applied by a left fold in registration
order — splitting a chain anywhere composes sequentially, registering
I1 then I2 applies I2 to the output of I1, and a `null` return leaves
the value unchanged; all of it for both the request and the response
chain. -/
theorem interceptor_chains_sequential :
    (∀ (c1 c2 : List RequestInterceptor) (x : Request),
        applyRequestInterceptors (c1 ++ c2) x =
          applyRequestInterceptors c2 (applyRequestInterceptors c1 x)) ∧
    (∀ (st : ServerState) (i1 i2 : RequestInterceptor) (x : Request),
        st.requestInterceptors = [] →
          applyRequestInterceptors
              (addRequestInterceptor (addRequestInterceptor st i1) i2).requestInterceptors x =
            applyRequestInterceptor (applyRequestInterceptor x i1) i2) ∧
    (∀ (x : Request) (i : RequestInterceptor), i x = none →
        applyRequestInterceptor x i = x) ∧
    (∀ (c1 c2 : List ResponseInterceptor) (y : ResponseRecord),
        applyResponseInterceptors (c1 ++ c2) y =
          applyResponseInterceptors c2 (applyResponseInterceptors c1 y)) ∧
    (∀ (st : ServerState) (j1 j2 : ResponseInterceptor) (y : ResponseRecord),
        st.responseInterceptors = [] →
          applyResponseInterceptors
              (addResponseInterceptor (addResponseInterceptor st j1) j2).responseInterceptors y =
            applyResponseInterceptor (applyResponseInterceptor y j1) j2) ∧
    (∀ (y : ResponseRecord) (j : ResponseInterceptor), j y = none →
        applyResponseInterceptor y j = y) := by
  refine ⟨?_, ?_, ?_, ?_, ?_, ?_⟩
  · intro c1 c2 x
    simp [applyRequestInterceptors, List.foldl_append]
  · intro st i1 i2 x h
    simp [addRequestInterceptor, h, applyRequestInterceptors]
  · intro x i h
    simp [applyRequestInterceptor, h]
  · intro c1 c2 y
    simp [applyResponseInterceptors, List.foldl_append]
  · intro st j1 j2 y h
    simp [addResponseInterceptor, h, applyResponseInterceptors]
  · intro y j h
    simp [applyResponseInterceptor, h]

/-- Witness for the C8 theorem at a concrete input: a header-setting
interceptor followed by a no-op one. -/
theorem interceptor_chains_sequential_witness :
    applyRequestInterceptors
        (addRequestInterceptor (addRequestInterceptor emptyState iSetHeader)
          iNoChange).requestInterceptors apiReq =
      applyRequestInterceptor (applyRequestInterceptor apiReq iSetHeader) iNoChange :=
  interceptor_chains_sequential.2.1 emptyState iSetHeader iNoChange apiReq rfl

end NetworkMocking

namespace NetworkMocking

/-- The empty pattern is a substring of everything (JS `includes('')`). -/
theorem hasSub_nil (l : List Char) : hasSub [] l = true := by
  cases l <;> simp [hasSub, List.isPrefixOf]

/-- Bool-valued propositional equality agrees with the `BEq` test on
strings. -/
theorem decide_eq_beq (a b : String) : decide (a = b) = (a == b) := by
  by_cases h : a = b
  · simp [h]
  · simp [h, beq_eq_false_iff_ne.mpr h]

/-- The filter callback of `findRequests`, with its JS truthiness
short-circuits, coincides pointwise with the amended conjunctive
predicate. -/
theorem matchesCriteria_eq_amended (c : FindCriteria) (e : RequestLogEntry) :
    matchesCriteria c e = amendedMatches c e := by
  rcases c with ⟨mth, up, bc⟩
  unfold matchesCriteria amendedMatches
  rcases mth with _ | m
  all_goals rcases bc with _ | b
  all_goals rcases up with _ | s | t
  all_goals simp only [truthyStr]
  all_goals try by_cases hm : m = ""
  all_goals try by_cases hb : b = ""
  all_goals try by_cases hs : s = ""
  all_goals simp_all [jsIncludes, hasSub_nil]
  all_goals rw [beq_eq_false_iff_ne.mpr hm, Bool.false_or, decide_eq_beq]
  all_goals rw [Bool.and_assoc]

end NetworkMocking

namespace NetworkMocking

/-- C9 (amended): `findRequests` returns exactly the log entries, in log
order, that satisfy all supplied criteria conjointly — method equality
(a supplied empty-string method matches everything), `urlPattern` as a
substring for a string or a test of the URL for a pattern, and
`bodyContains` as a substring of the entry's body except that an entry
without a body (an empty buffered body is logged as absent) passes any
`bodyContains` criterion; an absent criterion constrains nothing.  The
claim as frozen excludes body-less entries under `bodyContains`; the
code skips that check when `log.body` is falsy — see the
counterexample. -/
theorem findRequests_conjunctive (st : ServerState) (c : FindCriteria) :
    findRequests st c = st.requestLogs.filter (fun e => amendedMatches c e) := by
  unfold findRequests
  congr 1
  funext e
  exact matchesCriteria_eq_amended c e

/-- C9 counterexample: the criteria record `{bodyContains: "x"}` applied
to a log holding one body-less entry returns that entry, although the
entry does not satisfy the claimed predicate (its body does not
contain `"x"`). -/
theorem findRequests_bodyless_cex :
    findRequests stLogNoBody ⟨none, none, some "x"⟩ = [entryNoBody] ∧
      claimedMatches ⟨none, none, some "x"⟩ entryNoBody = false :=
  ⟨rfl, rfl⟩

/-- Reading the freshly appended array at the end of the heap. -/
theorem readRef_concat_length (h : Heap) (x : List RequestLogEntry) :
    readRef (h ++ [x]) h.length = x := by
  simp [readRef]

/-- Writing one array leaves every other array unchanged. -/
theorem readRef_set_ne (h : Heap) (i j : Nat) (v : List RequestLogEntry) (hij : i ≠ j) :
    readRef (writeRef h i v) j = readRef h j := by
  unfold readRef writeRef
  rw [List.getD_eq_getElem?_getD, List.getD_eq_getElem?_getD, List.getElem?_set_ne hij]

/-- Allocating at the end of the heap leaves existing arrays readable
unchanged. -/
theorem readRef_append_lt (h : Heap) (x : List RequestLogEntry) (j : Nat)
    (hj : j < h.length) :
    readRef (h ++ [x]) j = readRef h j := by
  unfold readRef
  rw [List.getD_eq_getElem?_getD, List.getD_eq_getElem?_getD,
    List.getElem?_append_left hj]

/-- C10: `getRequestLogs` hands back a fresh array — it holds the same
entries as the internal request log, lives at a different reference,
and overwriting its contents (modelling any in-place mutation of the
returned array, such as removing or appending entries) leaves the
internal request log unchanged, so later reads observe the same
entries as before. -/
theorem getRequestLogs_fresh_copy (h : Heap) (logRef : Nat) (hlt : logRef < h.length) :
    readRef (getRequestLogs h logRef).1 (getRequestLogs h logRef).2 = readRef h logRef ∧
      (getRequestLogs h logRef).2 ≠ logRef ∧
      ∀ v, readRef (writeRef (getRequestLogs h logRef).1 (getRequestLogs h logRef).2 v)
          logRef = readRef h logRef := by
  refine ⟨?_, ?_, ?_⟩
  · exact readRef_concat_length h (readRef h logRef)
  · simp only [getRequestLogs]
    omega
  · intro v
    simp only [getRequestLogs]
    rw [readRef_set_ne _ _ _ _ (by omega : h.length ≠ logRef)]
    exact readRef_append_lt h _ logRef hlt

/-- Witness for the C10 theorem at a concrete one-array heap. -/
theorem getRequestLogs_fresh_copy_witness :
    readRef (getRequestLogs heapW 0).1 (getRequestLogs heapW 0).2 = readRef heapW 0 ∧
      (getRequestLogs heapW 0).2 ≠ 0 ∧
      ∀ v, readRef (writeRef (getRequestLogs heapW 0).1 (getRequestLogs heapW 0).2 v) 0 =
        readRef heapW 0 :=
  getRequestLogs_fresh_copy heapW 0 (by decide)

end NetworkMocking
